import Mathlib

/-!
Verification of the MakerBot Customizer linter (`scripts/customizer_lint.py`)
against its natural-language specification.

The embedding below translates the lint core of the Python source:

* the regex patterns of `PATTERNS` become hand-written deterministic matchers
  over `List Char` (each matcher's doc comment records why determinization is
  faithful to the backtracking regex);
* `parse_annotation` and `get_value_type` become pure functions;
* `lint_file`'s walk over the top-level syntax-tree nodes becomes a
  state-passing recursion over a `List Node`; Python locals that can be read
  while unbound are modelled with `Option`, and reading such a local while it
  is `none` produces `Except.error` (Python's `UnboundLocalError`).

File reading is outside the embedding: `lint_file` here receives the list of
top-level nodes that `tree_sitter` would produce for the file's content,
together with the file path used in diagnostics.
-/

namespace CustomizerLint

/-- Characters matched by Python's `\s` in the ASCII range (space, tab,
newline, carriage return, form feed, vertical tab). -/
def isSpace (c : Char) : Bool :=
  c = ' ' ∨ c = '\t' ∨ c = '\n' ∨ c = '\r' ∨ c = '\x0c' ∨ c = '\x0b'

/-- `\s*`: drop the maximal run of whitespace.  Wherever the source regexes
use `\s*`, the following required character is never itself whitespace, so
the greedy maximal run is the only run a backtracking matcher can use. -/
def dropSpaces (s : List Char) : List Char := s.dropWhile isSpace

/-- Python's `str.strip()` restricted to ASCII whitespace: drop leading and
trailing whitespace. -/
def stripChars (s : List Char) : List Char :=
  ((s.dropWhile isSpace).reverse.dropWhile isSpace).reverse

/-- `\d+`: one or more ASCII digits, returning the remainder of the input.
`\d+` is greedy; in every use below the character required after it is never
a digit, so the maximal run is the only viable parse. -/
def parseDigits (s : List Char) : Option (List Char) :=
  match s with
  | c :: rest => if c.isDigit then some (rest.dropWhile (fun d => d.isDigit)) else none
  | [] => none

/-- `-?\d+(?:\.\d+)?`, the numeric token of the `slider` pattern.  When the
optional fraction `(?:\.\d+)?` sees a `.` not followed by a digit, the regex
backtracks to the empty fraction and leaves the remainder at the `.`; this
function returns that same remainder, so the two agree.  Shrinking `\d+`
below the maximal run would put a digit where the pattern next requires
`.`/`:`/`]`, so the greedy run is forced.  `numTail` is the part after the
optional sign. -/
def numTail (u : List Char) : Option (List Char) :=
  match parseDigits u with
  | none => none
  | some r =>
    match r with
    | c :: r2 =>
      if c = '.' then
        match parseDigits r2 with
        | some r3 => some r3
        | none => some r
      else some r
    | [] => some r

def parseNum (s : List Char) : Option (List Char) :=
  match s with
  | c :: rest => if c = '-' then numTail rest else numTail (c :: rest)
  | [] => numTail []

/-- One repetition of `(?::-?\d+(?:\.\d+)?)` from the `slider` pattern. -/
def parseColonNum (s : List Char) : Option (List Char) :=
  match s with
  | c :: rest => if c = ':' then parseNum rest else none
  | [] => none

/-- `PATTERNS["slider"]`: `^\[(-?\d+(?:\.\d+)?(?::-?\d+(?:\.\d+)?){0,2})\]$`.
The repetition is greedy; taking fewer repetitions than possible leaves a `:`
where `]` is required, so the greedy count is the only viable one. -/
def sliderMatch (s : List Char) : Bool :=
  match s with
  | b :: rest =>
    if b = '[' then
      match parseNum rest with
      | none => false
      | some r1 =>
        let r2 := match parseColonNum r1 with
          | some r => r
          | none => r1
        let r3 := match parseColonNum r2 with
          | some r => r
          | none => r2
        r3 = [']']
    else false
  | [] => false

/-- Match a literal keyword prefix character by character, returning the
remainder on success. -/
def matchKw : List Char → List Char → Option (List Char)
  | [], s => some s
  | _ :: _, [] => none
  | k :: ks, c :: cs => if c = k then matchKw ks cs else none

/-- `\d+x\d+\]$`, the tail shared by the three keyword patterns. -/
def dimsTail (s : List Char) : Bool :=
  match parseDigits s with
  | some (c :: r) =>
    if c = 'x' then
      match parseDigits r with
      | some r2 => r2 = [']']
      | none => false
    else false
  | _ => false

/-- `PATTERNS["image_surface"]`: `^\[image_surface:\d+x\d+\]$`. -/
def imageSurfaceMatch (s : List Char) : Bool :=
  match matchKw "[image_surface:".toList s with
  | some rest => dimsTail rest
  | none => false

/-- `PATTERNS["image_array"]`: `^\[image_array:\d+x\d+\]$`. -/
def imageArrayMatch (s : List Char) : Bool :=
  match matchKw "[image_array:".toList s with
  | some rest => dimsTail rest
  | none => false

/-- `PATTERNS["draw_polygon"]`: `^\[draw_polygon:\d+x\d+\]$`. -/
def drawPolygonMatch (s : List Char) : Bool :=
  match matchKw "[draw_polygon:".toList s with
  | some rest => dimsTail rest
  | none => false

/-- Tail of the dropdown body after its first character: the remaining
characters must be bracket-free with a final `]`. -/
def ddRest : List Char → Bool
  | [] => false
  | c :: rest =>
    match rest with
    | [] => c = ']'
    | _ :: _ => if c = '[' ∨ c = ']' then false else ddRest rest

/-- `PATTERNS["dropdown"]`: `^\[([^\[\]]+(?:,[^\[\]]+)*)\]$`.  Because `,` is
itself in `[^\[\]]`, the group's language is exactly the nonempty strings
free of `[` and `]`; so the pattern matches iff the input is `[`, then at
least one non-bracket character, then a final `]`. -/
def dropdownMatch : List Char → Bool
  | b :: c :: rest =>
    if b = '[' then (if c = '[' ∨ c = ']' then false else ddRest rest) else false
  | _ => false

/-- `parse_ annotation` from the source (name shortened): strip, then try the
patterns in source order — slider, image_surface, image_array, draw_polygon,
dropdown — then the `startswith("[")` fallback. -/
def parseAnnot (s : String) : String × Bool :=
  let a := stripChars s.toList
  if a = [] then ("none", true)
  else if sliderMatch a then ("slider", true)
  else if imageSurfaceMatch a then ("image_surface", true)
  else if imageArrayMatch a then ("image_array", true)
  else if drawPolygonMatch a then ("draw_polygon", true)
  else if dropdownMatch a then ("dropdown", true)
  else if a.head? = some '[' then ("unknown", false)
  else ("none", true)

/-- Group 1 of `PATTERNS["tab_decl"]` (`^\s*/\*\s*\[([^\]]+)\]\s*\*/\s*$`)
when the whole comment text matches, else `none`.  Each `\s*` is followed by
a non-whitespace requirement, `[^\]]+` is the maximal run before the first
`]`, and the final `\s*$` means the remainder is all whitespace, so the
deterministic parse below equals the regex. -/
def tabDeclMatch (s : List Char) : Option String :=
  match dropSpaces s with
  | a :: b :: s2 =>
    if a = '/' ∧ b = '*' then
      match dropSpaces s2 with
      | d :: s4 =>
        if d = '[' then
          let grp := s4.takeWhile (fun c => c ≠ ']')
          let rest := s4.dropWhile (fun c => c ≠ ']')
          match grp, rest with
          | [], _ => none
          | _ :: _, e :: s5 =>
            if e = ']' then
              match dropSpaces s5 with
              | f :: g :: s6 =>
                if f = '*' ∧ g = '/' then
                  if dropSpaces s6 = [] then some (String.mk grp) else none
                else none
              | _ => none
            else none
          | _ :: _, [] => none
        else none
      | [] => none
    else none
  | _ => none

/-- `PATTERNS["preview"]` (`^\s*//\s*preview\[`) used with `.match`, i.e.
anchored at the start only. -/
def previewMatch (s : List Char) : Bool :=
  match dropSpaces s with
  | a :: b :: s2 =>
    if a = '/' ∧ b = '/' then (dropSpaces s2).take 8 = "preview[".toList else false
  | _ => false

/-- An attempt to match `PATTERNS["annotation_comment"]`
(`//\s*(\[[^\]]+\])\s*$`) anchored at the start of `s`, returning group 1.
`\s*` is followed by `[`, `[^\]]+` is the maximal run before the first `]`,
and `\s*$` means the rest is all whitespace, so the parse is deterministic. -/
def annAt (s : List Char) : Option (List Char) :=
  match s with
  | a :: b :: s2 =>
    if a = '/' ∧ b = '/' then
      match dropSpaces s2 with
      | d :: s4 =>
        if d = '[' then
          let grp := s4.takeWhile (fun c => c ≠ ']')
          let rest := s4.dropWhile (fun c => c ≠ ']')
          match grp, rest with
          | [], _ => none
          | _ :: _, e :: s5 =>
            if e = ']' then
              (if dropSpaces s5 = [] then some ('[' :: (grp ++ [']'])) else none)
            else none
          | _ :: _, [] => none
        else none
      | [] => none
    else none
  | _ => none

/-- `re.search` with the `annotation_comment` pattern: the leftmost starting
position whose suffix matches, scanning left to right. -/
def annSearch : List Char → Option (List Char)
  | [] => none
  | c :: rest =>
    match annAt (c :: rest) with
    | some g => some g
    | none => annSearch rest

/-- A `tree_sitter` node as `lint_file` observes it: its `type` string, its
decoded `text`, its `start_point.row`, and its children (named and anonymous,
in order). -/
inductive Node where
  | mk (type : String) (text : String) (row : Nat) (children : List Node)

def Node.type : Node → String
  | .mk t _ _ _ => t

def Node.text : Node → String
  | .mk _ s _ _ => s

def Node.row : Node → Nat
  | .mk _ _ r _ => r

def Node.children : Node → List Node
  | .mk _ _ _ c => c

/-- Scan of a `list` node's children in `get_value_type`: per child, first
the `identifier` test, then the `binary_expression` test; the first child
passing either test decides the result. -/
def listScan : List Node → String × Bool × String
  | [] => ("list", false, "")
  | c :: rest =>
    if c.type = "identifier" then ("list", true, "list contains variable reference")
    else if c.type = "binary_expression" then ("list", true, "list contains computed expression")
    else listScan rest

/-- `get_value_type` from the source: classify a value node as
`(value_type, is_computed, reason)`. -/
def get_value_type (node : Node) : String × Bool × String :=
  let nt := node.type
  if nt = "integer" ∨ nt = "float" then ("number", false, "")
  else if nt = "string" then ("string", false, "")
  else if nt = "boolean" then ("boolean", false, "")
  else if nt = "list" then listScan node.children
  else if nt = "binary_expression" then
    ("expression", true, "computed expression won't appear in Customizer UI")
  else if nt = "unary_expression" then
    match node.children.getLast? with
    | some c =>
      if c.type = "integer" ∨ c.type = "float" then ("number", false, "")
      else ("expression", true, "computed expression won't appear in Customizer UI")
    | none => ("expression", true, "computed expression won't appear in Customizer UI")
  else if nt = "identifier" then
    ("reference", true, "variable reference won't appear in Customizer UI")
  else if nt = "ternary_expression" then
    ("expression", true, "ternary expression won't appear in Customizer UI")
  else if nt = "function_call" then
    ("expression", true, "function call won't appear in Customizer UI")
  else ("unknown", false, "")

/-- `LintError` from the source: one diagnostic.  `file` is the path the
diagnostic reports, `line` the 1-indexed line, `severity` is `"error"` or
`"warning"` (the dataclass default is `"error"`). -/
structure LintErr where
  file : String
  line : Nat
  message : String
  severity : String
deriving DecidableEq, Repr

/-- `LintResult` from the source: the per-file aggregation. -/
structure LintResult where
  file : String
  errors : List LintErr
  warnings : List LintErr
deriving DecidableEq, Repr

/-- The `passed` property: `len(self.errors) == 0`. -/
def LintResult.passed (r : LintResult) : Bool :=
  r.errors.length == 0

/-- The messages `lint_file` builds with f-strings. -/
def msgAfterModules (n : String) : String :=
  "Parameter '" ++ n ++ "' is after module declarations (won't be customizable)"

def msgTab : String :=
  "Parameters should be organized into tabs using /* [Tab Name] */"

def msgNoDesc (n : String) : String :=
  "Parameter '" ++ n ++ "' lacks a description comment"

def msgComputed (n reason : String) : String :=
  "Parameter '" ++ n ++ "': " ++ reason

def msgInvalidAnn (n ann : String) : String :=
  "Parameter '" ++ n ++ "' has invalid annotation: " ++ ann

def msgNoAnn (n : String) : String :=
  "Parameter '" ++ n ++ "' has no UI annotation (will be a text input)"

def msgNotCustomizable : String :=
  "No Customizer parameters found - file is not customizable"

/-- The local state of `lint_file`'s walk.  All fields are the Python locals
of the same names; `is_computed` is `Option Bool` because that local is first
assigned inside `if var_value:` and Python raises `UnboundLocalError` when
the later `not is_computed` test reads it unassigned (`none` here). -/
structure ScanState where
  current_tab : Option String
  in_parameter_section : Bool
  found_any_tab : Bool
  found_any_param : Bool
  param_without_tab_warning_issued : Bool
  previous_comment : Option Node
  previous_was_description : Bool
  is_computed : Option Bool
  errors : List LintErr
  warnings : List LintErr

def initState : ScanState :=
  { current_tab := none
    in_parameter_section := true
    found_any_tab := false
    found_any_param := false
    param_without_tab_warning_issued := false
    previous_comment := none
    previous_was_description := false
    is_computed := none
    errors := []
    warnings := [] }

/-- `result.warnings.append(...)`. -/
def addWarn (st : ScanState) (w : LintErr) : ScanState :=
  { st with warnings := st.warnings ++ [w] }

/-- `result.errors.append(...)`. -/
def addErr (st : ScanState) (e : LintErr) : ScanState :=
  { st with errors := st.errors ++ [e] }

/-- `previous_comment = None; previous_was_description = False`. -/
def resetPrev (st : ScanState) : ScanState :=
  { st with previous_comment := none, previous_was_description := false }

/-- The scan of `assignment.children` extracting `var_name` and `var_value`:
the first `identifier` child gives the name; every child whose type is
neither `"="` nor `"identifier"` overwrites the value (so the last one
wins, and an identifier value is never captured). -/
def extractNameValue : List Node → Option String → Option Node → Option String × Option Node
  | [], n, v => (n, v)
  | c :: rest, n, v =>
    if c.type = "identifier" ∧ n = none then extractNameValue rest (some c.text) v
    else if c.type ≠ "=" ∧ c.type ≠ "identifier" then extractNameValue rest n (some c)
    else extractNameValue rest n v

/-- Python's `var_name.startswith("$")`: the prefix is a single character,
so this is exactly "the first character is `$`". -/
def startsDollar (s : String) : Bool :=
  match s.toList with
  | c :: _ => c = '$'
  | [] => false

/-- The guards at the head of the `var_declaration` branch: find the
`assignment` child, extract name and value, then the `not var_name or
var_name.startswith("$")` and `current_tab == "Hidden"` skips.  `none` means
the declaration is skipped with `continue` (after the usual reset). -/
def varQualify (st : ScanState) (node : Node) : Option (String × Option Node) :=
  match node.children.find? (fun c => c.type = "assignment") with
  | none => none
  | some assignment =>
    match extractNameValue assignment.children none none with
    | (none, _) => none
    | (some name, var_value) =>
      if name = "" ∨ startsDollar name then none
      else if st.current_tab = some "Hidden" then none
      else some (name, var_value)

/-- `if not in_parameter_section:` block. -/
def stepAfterModules (fp : String) (line : Nat) (name : String) (st : ScanState) : ScanState :=
  if st.in_parameter_section then st
  else addWarn st ⟨fp, line, msgAfterModules name, "warning"⟩

/-- `if not found_any_tab and not param_without_tab_warning_issued:` block. -/
def stepTab (fp : String) (line : Nat) (st : ScanState) : ScanState :=
  if ¬st.found_any_tab ∧ ¬st.param_without_tab_warning_issued then
    { addWarn st ⟨fp, line, msgTab, "warning"⟩ with param_without_tab_warning_issued := true }
  else st

/-- `if not previous_was_description:` block. -/
def stepDesc (fp : String) (line : Nat) (name : String) (st : ScanState) : ScanState :=
  if st.previous_was_description then st
  else addWarn st ⟨fp, line, msgNoDesc name, "warning"⟩

/-- `if var_value:` block: classify the value, binding the `is_computed`
local, and warn when it is computed. -/
def stepValue (fp : String) (line : Nat) (name : String) (vv : Option Node) (st : ScanState) :
    ScanState :=
  match vv with
  | some v =>
    let c := get_value_type v
    let st2 := { st with is_computed := some c.2.1 }
    if c.2.1 then addWarn st2 ⟨fp, line, msgComputed name c.2.2, "warning"⟩ else st2
  | none => st

/-- The annotation lookahead: `next` is the following sibling
(`root.children[node_idx + 1]` when it exists).  Returns
(`annotation_found`, updated state). -/
def stepAnn (fp name : String) (next : Option Node) (st : ScanState) : Bool × ScanState :=
  match next with
  | some nx =>
    if nx.type = "line_comment" then
      match annSearch nx.text.toList with
      | some ann =>
        let a := String.mk ann
        if (parseAnnot a).2 then (true, st)
        else (true, addErr st ⟨fp, nx.row + 1, msgInvalidAnn name a, "error"⟩)
      | none => (false, st)
    else (false, st)
  | none => (false, st)

/-- `if not annotation_found and not is_computed:` — the `and` is
short-circuit, so `is_computed` is only read when `annotation_found` is
false; reading it unbound raises `UnboundLocalError`. -/
def stepNoAnn (fp : String) (line : Nat) (name : String) (p : Bool × ScanState) :
    Except String ScanState :=
  if p.1 then Except.ok (resetPrev p.2)
  else
    match p.2.is_computed with
    | none => Except.error "UnboundLocalError: is_computed"
    | some ic =>
      if ic then Except.ok (resetPrev p.2)
      else Except.ok (resetPrev (addWarn p.2 ⟨fp, line, msgNoAnn name, "warning"⟩))

/-- The `var_declaration` branch of `lint_file`'s walk.  `rest` is the list
of the node's following siblings (the annotation lookahead reads its head).
`Except.error` models Python's `UnboundLocalError` on `not is_computed`. -/
def processVar (fp : String) (node : Node) (rest : List Node) (st : ScanState) :
    Except String ScanState :=
  let line := node.row + 1
  match varQualify st node with
  | none => Except.ok (resetPrev st)
  | some (name, var_value) =>
    stepNoAnn fp line name
      (stepAnn fp name rest.head?
        (stepValue fp line name var_value
          (stepDesc fp line name
            (stepTab fp line
              (stepAfterModules fp line name { st with found_any_param := true })))))

/-- The `for node in root.children` loop of `lint_file`. -/
def walk (fp : String) : List Node → ScanState → Except String ScanState
  | [], st => Except.ok st
  | node :: rest, st =>
    if node.type = "module_item" ∨ node.type = "function_item" then
      walk fp rest (resetPrev { st with in_parameter_section := false })
    else if node.type = "block_comment" then
      let st2 :=
        match tabDeclMatch node.text.toList with
        | some tab => { st with current_tab := some tab, found_any_tab := true }
        | none => st
      walk fp rest (resetPrev st2)
    else if node.type = "line_comment" then
      if previewMatch node.text.toList then walk fp rest (resetPrev st)
      else if (annSearch node.text.toList).isSome then walk fp rest (resetPrev st)
      else
        walk fp rest { st with previous_comment := some node, previous_was_description := true }
    else if node.type = "var_declaration" then
      match processVar fp node rest st with
      | Except.ok st2 => walk fp rest st2
      | Except.error e => Except.error e
    else walk fp rest (resetPrev st)

/-- End of the walk: the `if not found_any_param` file-level error. -/
def finalize (fp : String) (st : ScanState) : LintResult :=
  if st.found_any_param then ⟨fp, st.errors, st.warnings⟩
  else ⟨fp, st.errors ++ [⟨fp, 1, msgNotCustomizable, "error"⟩], st.warnings⟩

/-- `lint_file` from the point where the file's bytes have been read and
parsed: walk the top-level nodes, then append the file-level error when no
qualifying parameter was found.  `Except.error` is an uncaught Python
exception escaping `lint_file`. -/
def lint_file (fp : String) (root_children : List Node) : Except String LintResult :=
  match walk fp root_children initState with
  | Except.ok st => Except.ok (finalize fp st)
  | Except.error e => Except.error e

lemma dropWhile_digits_append (t rest : List Char) (ht : ∀ c ∈ t, c.isDigit = true)
    (hr : ∀ c, rest.head? = some c → c.isDigit = false) :
    (t ++ rest).dropWhile (fun d => d.isDigit) = rest := by
  induction t with
  | nil =>
    cases rest with
    | nil => rfl
    | cons c r => simp [List.dropWhile, hr c rfl]
  | cons c t ih =>
    simp only [List.cons_append, List.dropWhile, ht c (by simp)]
    exact ih (fun d hd => ht d (by simp [hd]))

lemma parseDigits_append (t rest : List Char) (hne : t ≠ []) (ht : ∀ c ∈ t, c.isDigit = true)
    (hr : ∀ c, rest.head? = some c → c.isDigit = false) :
    parseDigits (t ++ rest) = some rest := by
  cases t with
  | nil => exact absurd rfl hne
  | cons c t' =>
    simp only [List.cons_append, parseDigits, ht c (by simp), if_true]
    rw [dropWhile_digits_append t' rest (fun d hd => ht d (by simp [hd])) hr]

lemma parseDigits_inv {s r : List Char} (h : parseDigits s = some r) :
    ∃ t, s = t ++ r ∧ t ≠ [] ∧ ∀ c ∈ t, c.isDigit = true := by
  cases s with
  | nil => simp [parseDigits] at h
  | cons c s' =>
    by_cases hc : c.isDigit
    · simp only [parseDigits, hc, if_true, Option.some.injEq] at h
      refine ⟨c :: s'.takeWhile (fun d => d.isDigit), ?_, by simp, ?_⟩
      · rw [← h]; simp [List.takeWhile_append_dropWhile]
      · intro d hd
        rcases List.mem_cons.mp hd with h1 | h2
        · exact h1 ▸ hc
        · exact List.mem_takeWhile_imp h2
    · simp [parseDigits, hc] at h

lemma numTail_append (u rest : List Char) (h : numTail u = some [])
    (hr1 : ∀ c, rest.head? = some c → c.isDigit = false)
    (hr2 : rest.head? ≠ some '.') :
    numTail (u ++ rest) = some rest := by
  unfold numTail at h
  split at h
  · exact absurd h (by simp)
  · rename_i r hpd
    cases r with
    | nil =>
      obtain ⟨t, ht1, ht2, ht3⟩ := parseDigits_inv hpd
      rw [List.append_nil] at ht1
      unfold numTail
      rw [ht1, parseDigits_append t rest ht2 ht3 hr1]
      cases rest with
      | nil => rfl
      | cons c r' =>
        have hc : c ≠ '.' := fun e => hr2 (by rw [e]; rfl)
        simp [hc]
    | cons c r2 =>
      simp only [] at h
      by_cases hdot : c = '.'
      · subst hdot
        rw [if_pos rfl] at h
        split at h
        · rename_i r3 hpd2
          simp only [Option.some.injEq] at h
          subst h
          obtain ⟨t1, ht1, ht2, ht3⟩ := parseDigits_inv hpd
          obtain ⟨t2, hu1, hu2, hu3⟩ := parseDigits_inv hpd2
          rw [List.append_nil] at hu1
          have p1 : parseDigits (t1 ++ ('.' :: (t2 ++ rest))) = some ('.' :: (t2 ++ rest)) :=
            parseDigits_append t1 ('.' :: (t2 ++ rest)) ht2 ht3
              (by intro c hc; injection hc with e; rw [← e]; decide)
          have p2 : parseDigits (t2 ++ rest) = some rest :=
            parseDigits_append t2 rest hu2 hu3 hr1
          unfold numTail
          rw [ht1, hu1]
          rw [List.append_assoc, List.cons_append, p1]
          simp [p2]
        · simp at h
      · rw [if_neg hdot] at h
        simp at h

lemma parseNum_append (s rest : List Char) (h : parseNum s = some [])
    (hr1 : ∀ c, rest.head? = some c → c.isDigit = false)
    (hr2 : rest.head? ≠ some '.') :
    parseNum (s ++ rest) = some rest := by
  cases s with
  | nil => simp [parseNum, numTail, parseDigits] at h
  | cons c s' =>
    unfold parseNum at h ⊢
    rw [List.cons_append]
    simp only [] at h ⊢
    by_cases hc : c = '-'
    · rw [if_pos hc] at h ⊢
      exact numTail_append s' rest h hr1 hr2
    · rw [if_neg hc] at h ⊢
      rw [← List.cons_append]
      exact numTail_append (c :: s') rest h hr1 hr2

lemma sliderMatch_two (a b : List Char) (ha : parseNum a = some []) (hb : parseNum b = some []) :
    sliderMatch ('[' :: (a ++ ':' :: (b ++ [']']))) = true := by
  have h1 : parseNum (a ++ ':' :: (b ++ [']'])) = some (':' :: (b ++ [']'])) :=
    parseNum_append a _ ha
      (by intro x hx; injection hx with e; exact e ▸ (by decide))
      (by intro hx; injection hx with e; exact absurd e (by decide))
  have h2 : parseNum (b ++ [']']) = some [']'] :=
    parseNum_append b _ hb
      (by intro x hx; injection hx with e; exact e ▸ (by decide))
      (by intro hx; injection hx with e; exact absurd e (by decide))
  unfold sliderMatch
  simp only [if_true]
  rw [h1]
  simp [parseColonNum, h2]

lemma sliderMatch_three (a b c : List Char) (ha : parseNum a = some [])
    (hb : parseNum b = some []) (hc : parseNum c = some []) :
    sliderMatch ('[' :: (a ++ ':' :: (b ++ ':' :: (c ++ [']'])))) = true := by
  have h1 : parseNum (a ++ ':' :: (b ++ ':' :: (c ++ [']']))) = some (':' :: (b ++ ':' :: (c ++ [']']))) :=
    parseNum_append a _ ha
      (by intro x hx; injection hx with e; exact e ▸ (by decide))
      (by intro hx; injection hx with e; exact absurd e (by decide))
  have h2 : parseNum (b ++ ':' :: (c ++ [']'])) = some (':' :: (c ++ [']'])) :=
    parseNum_append b _ hb
      (by intro x hx; injection hx with e; exact e ▸ (by decide))
      (by intro hx; injection hx with e; exact absurd e (by decide))
  have h3 : parseNum (c ++ [']']) = some [']'] :=
    parseNum_append c _ hc
      (by intro x hx; injection hx with e; exact e ▸ (by decide))
      (by intro hx; injection hx with e; exact absurd e (by decide))
  unfold sliderMatch
  simp only [if_true]
  rw [h1]
  simp [parseColonNum, h2, h3]



lemma stripChars_bracket (mid : List Char) :
    stripChars ('[' :: (mid ++ [']'])) = '[' :: (mid ++ [']']) := by
  unfold stripChars
  simp [List.dropWhile_cons, List.reverse_append,
    (by decide : isSpace '[' = false), (by decide : isSpace ']' = false)]

lemma matchKw_self (k rest : List Char) : matchKw k (k ++ rest) = some rest := by
  induction k with
  | nil => rfl
  | cons c ks ih => simp [matchKw, ih]

lemma parseNum_letter (c : Char) (rest : List Char) (h1 : c.isDigit = false) (h2 : c ≠ '-') :
    parseNum (c :: rest) = none := by
  unfold parseNum numTail parseDigits
  simp [h1, h2]

lemma sliderMatch_letter (c : Char) (rest : List Char) (h1 : c.isDigit = false) (h2 : c ≠ '-') :
    sliderMatch ('[' :: (c :: rest)) = false := by
  unfold sliderMatch
  simp [parseNum_letter c rest h1 h2]

lemma dimsTail_digits (W H : List Char) (hW : W ≠ []) (hWd : ∀ c ∈ W, c.isDigit = true)
    (hH : H ≠ []) (hHd : ∀ c ∈ H, c.isDigit = true) :
    dimsTail (W ++ 'x' :: (H ++ [']'])) = true := by
  unfold dimsTail
  rw [parseDigits_append W ('x' :: (H ++ [']'])) hW hWd
    (by intro c hc; injection hc with e; rw [← e]; decide)]
  simp only [if_true]
  rw [parseDigits_append H [']'] hH hHd
    (by intro c hc; injection hc with e; rw [← e]; decide)]
  rfl

lemma ddRest_append (mid : List Char) (h : ∀ c ∈ mid, c ≠ '[' ∧ c ≠ ']') :
    ddRest (mid ++ [']']) = true := by
  induction mid with
  | nil => rfl
  | cons c mid' ih =>
    have hc := h c (by simp)
    cases mid' with
    | nil => simp [ddRest, hc.1, hc.2]
    | cons d m2 =>
      rw [List.cons_append]
      show ddRest (c :: ((d :: m2) ++ [']'])) = true
      rw [List.cons_append]
      simp only [ddRest]
      rw [if_neg (by simp [hc.1, hc.2])]
      show ddRest ((d :: m2) ++ [']']) = true
      exact ih (fun x hx => h x (by simp [hx]))



lemma parseAnnot_slider_two (a b : List Char)
    (ha : parseNum a = some []) (hb : parseNum b = some []) :
    parseAnnot (String.mk ('[' :: (a ++ ':' :: (b ++ [']'])))) = ("slider", true) := by
  have e0 : (String.mk ('[' :: (a ++ ':' :: (b ++ [']'])))).toList
      = '[' :: (a ++ ':' :: (b ++ [']'])) := rfl
  have e1 : '[' :: (a ++ ':' :: (b ++ [']'])) = '[' :: ((a ++ ':' :: b) ++ [']']) := by simp
  have hstrip : stripChars ('[' :: (a ++ ':' :: (b ++ [']'])))
      = '[' :: (a ++ ':' :: (b ++ [']'])) := by
    rw [e1, stripChars_bracket, ← e1]
  unfold parseAnnot
  rw [e0, hstrip]
  rw [if_neg (by simp)]
  rw [sliderMatch_two a b ha hb]
  simp

lemma parseAnnot_slider_three (a b c : List Char)
    (ha : parseNum a = some []) (hb : parseNum b = some []) (hc : parseNum c = some []) :
    parseAnnot (String.mk ('[' :: (a ++ ':' :: (b ++ ':' :: (c ++ [']']))))) = ("slider", true) := by
  have e0 : (String.mk ('[' :: (a ++ ':' :: (b ++ ':' :: (c ++ [']']))))).toList
      = '[' :: (a ++ ':' :: (b ++ ':' :: (c ++ [']']))) := rfl
  have e1 : '[' :: (a ++ ':' :: (b ++ ':' :: (c ++ [']'])))
      = '[' :: ((a ++ ':' :: b ++ ':' :: c) ++ [']']) := by simp
  have hstrip : stripChars ('[' :: (a ++ ':' :: (b ++ ':' :: (c ++ [']']))))
      = '[' :: (a ++ ':' :: (b ++ ':' :: (c ++ [']']))) := by
    rw [e1, stripChars_bracket, ← e1]
  unfold parseAnnot
  rw [e0, hstrip]
  rw [if_neg (by simp)]
  rw [sliderMatch_three a b c ha hb hc]
  simp



lemma imageSurfaceMatch_self (rest : List Char) :
    imageSurfaceMatch ("[image_surface:".toList ++ rest) = dimsTail rest := by
  unfold imageSurfaceMatch
  rw [matchKw_self]

lemma imageArrayMatch_self (rest : List Char) :
    imageArrayMatch ("[image_array:".toList ++ rest) = dimsTail rest := by
  unfold imageArrayMatch
  rw [matchKw_self]

lemma drawPolygonMatch_self (rest : List Char) :
    drawPolygonMatch ("[draw_polygon:".toList ++ rest) = dimsTail rest := by
  unfold drawPolygonMatch
  rw [matchKw_self]

lemma imageSurfaceMatch_array (t : List Char) :
    imageSurfaceMatch ("[image_array:".toList ++ t) = false := by
  have e1 : "[image_surface:".toList
      = '[' :: 'i' :: 'm' :: 'a' :: 'g' :: 'e' :: '_' :: 's' :: 'u' :: 'r' :: 'f' :: 'a' :: 'c' :: 'e' :: ':' ::[] := rfl
  have e2 : "[image_array:".toList ++ t
      = '[' :: 'i' :: 'm' :: 'a' :: 'g' :: 'e' :: '_' :: 'a' :: 'r' :: 'r' :: 'a' :: 'y' :: ':' ::t := rfl
  unfold imageSurfaceMatch
  rw [e1, e2]
  simp [matchKw]

lemma imageSurfaceMatch_polygon (t : List Char) :
    imageSurfaceMatch ("[draw_polygon:".toList ++ t) = false := by
  have e1 : "[image_surface:".toList
      = '[' :: 'i' :: 'm' :: 'a' :: 'g' :: 'e' :: '_' :: 's' :: 'u' :: 'r' :: 'f' :: 'a' :: 'c' :: 'e' :: ':' ::[] := rfl
  have e2 : "[draw_polygon:".toList ++ t
      = '[' :: 'd' :: 'r' :: 'a' :: 'w' :: '_' :: 'p' :: 'o' :: 'l' :: 'y' :: 'g' :: 'o' :: 'n' :: ':' ::t := rfl
  unfold imageSurfaceMatch
  rw [e1, e2]
  simp [matchKw]

lemma imageArrayMatch_polygon (t : List Char) :
    imageArrayMatch ("[draw_polygon:".toList ++ t) = false := by
  have e1 : "[image_array:".toList
      = '[' :: 'i' :: 'm' :: 'a' :: 'g' :: 'e' :: '_' :: 'a' :: 'r' :: 'r' :: 'a' :: 'y' :: ':' ::[] := rfl
  have e2 : "[draw_polygon:".toList ++ t
      = '[' :: 'd' :: 'r' :: 'a' :: 'w' :: '_' :: 'p' :: 'o' :: 'l' :: 'y' :: 'g' :: 'o' :: 'n' :: ':' ::t := rfl
  unfold imageArrayMatch
  rw [e1, e2]
  simp [matchKw]



lemma digit_nonbracket {c : Char} (h : c.isDigit = true) : c ≠ '[' ∧ c ≠ ']' := by
  constructor <;> rintro rfl <;> exact absurd h (by decide)

lemma parseAnnot_surface (W H : List Char) (hW : W ≠ []) (hWd : ∀ c ∈ W, c.isDigit = true)
    (hH : H ≠ []) (hHd : ∀ c ∈ H, c.isDigit = true) :
    parseAnnot (String.mk ("[image_surface:".toList ++ (W ++ 'x' :: (H ++ [']'])))) = ("image_surface", true) ∧
    dropdownMatch ("[image_surface:".toList ++ (W ++ 'x' :: (H ++ [']']))) = true := by
  have e0 : (String.mk ("[image_surface:".toList ++ (W ++ 'x' :: (H ++ [']'])))).toList
      = "[image_surface:".toList ++ (W ++ 'x' :: (H ++ [']'])) := rfl
  have eb : "[image_surface:".toList ++ (W ++ 'x' :: (H ++ [']']))
      = '[' :: (("image_surface:".toList ++ (W ++ 'x' :: H)) ++ [']']) := by
    rw [show "[image_surface:".toList = '[' :: "image_surface:".toList from rfl]
    simp
  have hstrip : stripChars ("[image_surface:".toList ++ (W ++ 'x' :: (H ++ [']'])))
      = "[image_surface:".toList ++ (W ++ 'x' :: (H ++ [']'])) := by
    rw [eb, stripChars_bracket]
  have hne : "[image_surface:".toList ++ (W ++ 'x' :: (H ++ [']'])) ≠ [] := by
    rw [eb]; simp
  have hslider : sliderMatch ("[image_surface:".toList ++ (W ++ 'x' :: (H ++ [']']))) = false := by
    rw [show "[image_surface:".toList ++ (W ++ 'x' :: (H ++ [']']))
        = '[' :: ('i' :: ("mage_surface:".toList ++ (W ++ 'x' :: (H ++ [']'])))) from rfl]
    exact sliderMatch_letter 'i' _ (by decide) (by decide)
  have hsurf : imageSurfaceMatch ("[image_surface:".toList ++ (W ++ 'x' :: (H ++ [']']))) = true := by
    rw [imageSurfaceMatch_self]
    exact dimsTail_digits W H hW hWd hH hHd
  have hconc : ∀ x ∈ "mage_surface:".toList, x ≠ '[' ∧ x ≠ ']' := by decide
  have hmem : ∀ x ∈ "mage_surface:".toList ++ (W ++ 'x' :: H), x ≠ '[' ∧ x ≠ ']' := by
    intro x hx
    rcases List.mem_append.mp hx with h1 | h2
    · exact hconc x h1
    · rcases List.mem_append.mp h2 with h3 | h4
      · exact digit_nonbracket (hWd x h3)
      · rcases List.mem_cons.mp h4 with h5 | h6
        · subst h5; exact ⟨by decide, by decide⟩
        · exact digit_nonbracket (hHd x h6)
  have hdd : dropdownMatch ("[image_surface:".toList ++ (W ++ 'x' :: (H ++ [']']))) = true := by
    rw [show "[image_surface:".toList ++ (W ++ 'x' :: (H ++ [']']))
        = '[' :: ('i' :: (("mage_surface:".toList ++ (W ++ 'x' :: H)) ++ [']'])) from by
      rw [eb]; rfl]
    unfold dropdownMatch
    simp only [if_true]
    rw [if_neg (by simp)]
    exact ddRest_append _ hmem
  refine ⟨?_, hdd⟩
  unfold parseAnnot
  rw [e0, hstrip, if_neg hne, hslider,
    if_neg (show ¬(false = true) by decide), hsurf, if_pos rfl]



lemma parseAnnot_array (W H : List Char) (hW : W ≠ []) (hWd : ∀ c ∈ W, c.isDigit = true)
    (hH : H ≠ []) (hHd : ∀ c ∈ H, c.isDigit = true) :
    parseAnnot (String.mk ("[image_array:".toList ++ (W ++ 'x' :: (H ++ [']'])))) = ("image_array", true) := by
  have e0 : (String.mk ("[image_array:".toList ++ (W ++ 'x' :: (H ++ [']'])))).toList
      = "[image_array:".toList ++ (W ++ 'x' :: (H ++ [']'])) := rfl
  have eb : "[image_array:".toList ++ (W ++ 'x' :: (H ++ [']']))
      = '[' :: (("image_array:".toList ++ (W ++ 'x' :: H)) ++ [']']) := by
    rw [show "[image_array:".toList = '[' :: "image_array:".toList from rfl]
    simp
  have hstrip : stripChars ("[image_array:".toList ++ (W ++ 'x' :: (H ++ [']'])))
      = "[image_array:".toList ++ (W ++ 'x' :: (H ++ [']'])) := by
    rw [eb, stripChars_bracket]
  have hne : "[image_array:".toList ++ (W ++ 'x' :: (H ++ [']'])) ≠ [] := by
    rw [eb]; simp
  have hslider : sliderMatch ("[image_array:".toList ++ (W ++ 'x' :: (H ++ [']']))) = false := by
    rw [show "[image_array:".toList ++ (W ++ 'x' :: (H ++ [']']))
        = '[' :: ('i' :: ("mage_array:".toList ++ (W ++ 'x' :: (H ++ [']'])))) from rfl]
    exact sliderMatch_letter 'i' _ (by decide) (by decide)
  have harr : imageArrayMatch ("[image_array:".toList ++ (W ++ 'x' :: (H ++ [']']))) = true := by
    rw [imageArrayMatch_self]
    exact dimsTail_digits W H hW hWd hH hHd
  unfold parseAnnot
  rw [e0, hstrip, if_neg hne, hslider,
    if_neg (show ¬(false = true) by decide), imageSurfaceMatch_array,
    if_neg (show ¬(false = true) by decide), harr, if_pos rfl]

lemma parseAnnot_polygon (W H : List Char) (hW : W ≠ []) (hWd : ∀ c ∈ W, c.isDigit = true)
    (hH : H ≠ []) (hHd : ∀ c ∈ H, c.isDigit = true) :
    parseAnnot (String.mk ("[draw_polygon:".toList ++ (W ++ 'x' :: (H ++ [']'])))) = ("draw_polygon", true) := by
  have e0 : (String.mk ("[draw_polygon:".toList ++ (W ++ 'x' :: (H ++ [']'])))).toList
      = "[draw_polygon:".toList ++ (W ++ 'x' :: (H ++ [']'])) := rfl
  have eb : "[draw_polygon:".toList ++ (W ++ 'x' :: (H ++ [']']))
      = '[' :: (("draw_polygon:".toList ++ (W ++ 'x' :: H)) ++ [']']) := by
    rw [show "[draw_polygon:".toList = '[' :: "draw_polygon:".toList from rfl]
    simp
  have hstrip : stripChars ("[draw_polygon:".toList ++ (W ++ 'x' :: (H ++ [']'])))
      = "[draw_polygon:".toList ++ (W ++ 'x' :: (H ++ [']'])) := by
    rw [eb, stripChars_bracket]
  have hne : "[draw_polygon:".toList ++ (W ++ 'x' :: (H ++ [']'])) ≠ [] := by
    rw [eb]; simp
  have hslider : sliderMatch ("[draw_polygon:".toList ++ (W ++ 'x' :: (H ++ [']']))) = false := by
    rw [show "[draw_polygon:".toList ++ (W ++ 'x' :: (H ++ [']']))
        = '[' :: ('d' :: ("raw_polygon:".toList ++ (W ++ 'x' :: (H ++ [']'])))) from rfl]
    exact sliderMatch_letter 'd' _ (by decide) (by decide)
  have hpol : drawPolygonMatch ("[draw_polygon:".toList ++ (W ++ 'x' :: (H ++ [']']))) = true := by
    rw [drawPolygonMatch_self]
    exact dimsTail_digits W H hW hWd hH hHd
  unfold parseAnnot
  rw [e0, hstrip, if_neg hne, hslider,
    if_neg (show ¬(false = true) by decide), imageSurfaceMatch_polygon,
    if_neg (show ¬(false = true) by decide), imageArrayMatch_polygon,
    if_neg (show ¬(false = true) by decide), hpol, if_pos rfl]



def countTab (ws : List LintErr) : Nat :=
  (ws.filter (fun w => w.message = msgTab)).length

lemma countTab_append (ws ds : List LintErr) :
    countTab (ws ++ ds) = countTab ws + countTab ds := by
  simp [countTab, List.filter_append]

lemma countTab_cons (w : LintErr) (ws : List LintErr) :
    countTab (w :: ws) = (if w.message = msgTab then 1 else 0) + countTab ws := by
  by_cases h : w.message = msgTab <;> simp [countTab, List.filter_cons, h, Nat.add_comm]

lemma afterModules_ne_noAnn (n : String) : msgAfterModules n ≠ msgNoAnn n := by
  intro h
  have h2 := congrArg String.data h
  simp [msgAfterModules, msgNoAnn, String.data_append] at h2

lemma noDesc_ne_noAnn (n : String) : msgNoDesc n ≠ msgNoAnn n := by
  intro h
  have h2 := congrArg String.data h
  simp [msgNoDesc, msgNoAnn, String.data_append] at h2

lemma computed_ne_noAnn (n r : String) : msgComputed n r ≠ msgNoAnn n := by
  intro h
  have h2 := congrArg String.data h
  simp [msgComputed, msgNoAnn, String.data_append] at h2

lemma tab_ne_noAnn (n : String) : msgTab ≠ msgNoAnn n := by
  intro h
  have h2 := congrArg String.data h
  simp [msgTab, msgNoAnn, String.data_append] at h2

lemma afterModules_ne_tab (n : String) : msgAfterModules n ≠ msgTab := by
  intro h
  have h2 := congrArg String.data h
  simp [msgAfterModules, msgTab, String.data_append] at h2

lemma noDesc_ne_tab (n : String) : msgNoDesc n ≠ msgTab := by
  intro h
  have h2 := congrArg String.data h
  simp [msgNoDesc, msgTab, String.data_append] at h2

lemma computed_ne_tab (n r : String) : msgComputed n r ≠ msgTab := by
  intro h
  have h2 := congrArg String.data h
  simp [msgComputed, msgTab, String.data_append] at h2

lemma noAnn_ne_tab (n : String) : msgNoAnn n ≠ msgTab := by
  intro h
  have h2 := congrArg String.data h
  simp [msgNoAnn, msgTab, String.data_append] at h2



lemma eta_warn (st : ScanState) : ({ st with warnings := st.warnings ++ [] } : ScanState) = st := by
  rw [List.append_nil]

lemma stepAfterModules_spec (fp : String) (line : Nat) (name : String) (st : ScanState) :
    ∃ d, stepAfterModules fp line name st = { st with warnings := st.warnings ++ d } ∧
      ∀ w ∈ d, w.severity = "warning" ∧ w.message = msgAfterModules name := by
  unfold stepAfterModules addWarn
  by_cases h : st.in_parameter_section = true
  · refine ⟨[], ?_, by simp⟩
    rw [if_pos h, eta_warn]
  · refine ⟨[⟨fp, line, msgAfterModules name, "warning"⟩], ?_, by simp⟩
    rw [if_neg h]

lemma stepDesc_spec (fp : String) (line : Nat) (name : String) (st : ScanState) :
    ∃ d, stepDesc fp line name st = { st with warnings := st.warnings ++ d } ∧
      ∀ w ∈ d, w.severity = "warning" ∧ w.message = msgNoDesc name := by
  unfold stepDesc addWarn
  by_cases h : st.previous_was_description = true
  · refine ⟨[], ?_, by simp⟩
    rw [if_pos h, eta_warn]
  · refine ⟨[⟨fp, line, msgNoDesc name, "warning"⟩], ?_, by simp⟩
    rw [if_neg h]

lemma stepTab_spec (fp : String) (line : Nat) (st : ScanState) :
    (st.param_without_tab_warning_issued = false ∧
      stepTab fp line st = { st with warnings := st.warnings ++ [⟨fp, line, msgTab, "warning"⟩],
                                     param_without_tab_warning_issued := true }) ∨
    stepTab fp line st = st := by
  unfold stepTab addWarn
  by_cases h : ¬st.found_any_tab = true ∧ ¬st.param_without_tab_warning_issued = true
  · left
    exact ⟨by simpa using h.2, by rw [if_pos h]⟩
  · right
    rw [if_neg h]

lemma stepValue_spec (fp : String) (line : Nat) (name : String) (vv : Option Node) (st : ScanState) :
    ∃ d ic, stepValue fp line name vv st = { st with warnings := st.warnings ++ d, is_computed := ic } ∧
      (∀ w ∈ d, w.severity = "warning" ∧ ∃ r, w.message = msgComputed name r) ∧
      (∀ v, vv = some v → (get_value_type v).2.1 = true →
        (⟨fp, line, msgComputed name (get_value_type v).2.2, "warning"⟩ : LintErr) ∈ d ∧ ic = some true) := by
  unfold stepValue addWarn
  rcases vv with _ | v
  · refine ⟨[], st.is_computed, ?_, by simp, by simp⟩
    simp only []
    rw [List.append_nil]
  · by_cases h : (get_value_type v).2.1 = true
    · refine ⟨[⟨fp, line, msgComputed name (get_value_type v).2.2, "warning"⟩], some true, ?_, ?_, ?_⟩
      · simp only []
        rw [h, if_pos rfl]
      · exact fun w hw => by simp at hw; subst hw; exact ⟨rfl, _, rfl⟩
      · intro v2 hv2 _
        injection hv2 with e
        subst e
        simp
    · refine ⟨[], some (get_value_type v).2.1, ?_, by simp, ?_⟩
      · simp only []
        rw [if_neg h, List.append_nil]
      · intro v2 hv2 hc
        injection hv2 with e
        subst e
        exact absurd hc h



lemma chain_spec (fp : String) (line : Nat) (name : String) (vv : Option Node) (st : ScanState) :
    ∃ (d : List LintErr) (b : Bool) (ic : Option Bool),
      stepValue fp line name vv (stepDesc fp line name (stepTab fp line (stepAfterModules fp line name st)))
        = { st with warnings := st.warnings ++ d,
                    param_without_tab_warning_issued := b,
                    is_computed := ic } ∧
      (∀ w ∈ d, w.severity = "warning") ∧
      (∀ w ∈ d, w.message ≠ msgNoAnn name) ∧
      ((st.param_without_tab_warning_issued = false ∧ b = true ∧ countTab d ≤ 1) ∨
        (b = st.param_without_tab_warning_issued ∧ countTab d = 0)) ∧
      (∀ v, vv = some v → (get_value_type v).2.1 = true →
        (⟨fp, line, msgComputed name (get_value_type v).2.2, "warning"⟩ : LintErr) ∈ d ∧ ic = some true) := by
  obtain ⟨d1, e1, p1⟩ := stepAfterModules_spec fp line name st
  rw [e1]
  rcases stepTab_spec fp line { st with warnings := st.warnings ++ d1 } with ⟨hiss, e2⟩ | e2 <;>
    rw [e2] <;> (try simp only []) <;> clear e2
  · -- tab warning emitted
    obtain ⟨d3, e3, p3⟩ := stepDesc_spec fp line name
      { st with warnings := (st.warnings ++ d1) ++ [⟨fp, line, msgTab, "warning"⟩],
                param_without_tab_warning_issued := true }
    rw [e3]
    simp only [] at e3 ⊢
    obtain ⟨d4, ic, e4, p4, p5⟩ := stepValue_spec fp line name vv
      { st with warnings := ((st.warnings ++ d1) ++ [⟨fp, line, msgTab, "warning"⟩]) ++ d3,
                param_without_tab_warning_issued := true }
    rw [e4]
    simp only []
    refine ⟨d1 ++ [⟨fp, line, msgTab, "warning"⟩] ++ d3 ++ d4, true, ic, ?_, ?_, ?_, ?_, ?_⟩
    · simp [List.append_assoc]
    · intro w hw
      simp only [List.mem_append, List.mem_singleton] at hw
      rcases hw with ((h | h) | h) | h
      · exact (p1 w h).1
      · rw [h]
      · exact (p3 w h).1
      · exact (p4 w h).1
    · intro w hw
      simp only [List.mem_append, List.mem_singleton] at hw
      rcases hw with ((h | h) | h) | h
      · rw [(p1 w h).2]; exact afterModules_ne_noAnn name
      · rw [h]; exact tab_ne_noAnn name
      · rw [(p3 w h).2]; exact noDesc_ne_noAnn name
      · obtain ⟨r, hr⟩ := (p4 w h).2
        rw [hr]; exact computed_ne_noAnn name r
    · left
      refine ⟨hiss, rfl, ?_⟩
      have c1 : countTab d1 = 0 := by
        simp only [countTab, List.length_eq_zero, List.filter_eq_nil_iff]
        intro w hw
        simp [(p1 w hw).2, afterModules_ne_tab name]
      have c3 : countTab d3 = 0 := by
        simp only [countTab, List.length_eq_zero, List.filter_eq_nil_iff]
        intro w hw
        simp [(p3 w hw).2, noDesc_ne_tab name]
      have c4 : countTab d4 = 0 := by
        simp only [countTab, List.length_eq_zero, List.filter_eq_nil_iff]
        intro w hw
        obtain ⟨r, hr⟩ := (p4 w hw).2
        simp [hr, computed_ne_tab name r]
      have ct : countTab [(⟨fp, line, msgTab, "warning"⟩ : LintErr)] = 1 := by
        simp [countTab]
      simp [countTab_append, countTab_cons, c1, c3, c4, ct]
    · intro v hv hcv
      obtain ⟨hmem, hic⟩ := p5 v hv hcv
      exact ⟨by simp [hmem], hic⟩
  · -- no tab warning
    obtain ⟨d3, e3, p3⟩ := stepDesc_spec fp line name { st with warnings := st.warnings ++ d1 }
    rw [e3]
    simp only []
    obtain ⟨d4, ic, e4, p4, p5⟩ := stepValue_spec fp line name vv
      { st with warnings := (st.warnings ++ d1) ++ d3 }
    rw [e4]
    simp only []
    refine ⟨d1 ++ d3 ++ d4, st.param_without_tab_warning_issued, ic, ?_, ?_, ?_, ?_, ?_⟩
    · simp [List.append_assoc]
    · intro w hw
      simp only [List.mem_append] at hw
      rcases hw with (h | h) | h
      · exact (p1 w h).1
      · exact (p3 w h).1
      · exact (p4 w h).1
    · intro w hw
      simp only [List.mem_append] at hw
      rcases hw with (h | h) | h
      · rw [(p1 w h).2]; exact afterModules_ne_noAnn name
      · rw [(p3 w h).2]; exact noDesc_ne_noAnn name
      · obtain ⟨r, hr⟩ := (p4 w h).2
        rw [hr]; exact computed_ne_noAnn name r
    · right
      refine ⟨rfl, ?_⟩
      have c1 : countTab d1 = 0 := by
        simp only [countTab, List.length_eq_zero, List.filter_eq_nil_iff]
        intro w hw
        simp [(p1 w hw).2, afterModules_ne_tab name]
      have c3 : countTab d3 = 0 := by
        simp only [countTab, List.length_eq_zero, List.filter_eq_nil_iff]
        intro w hw
        simp [(p3 w hw).2, noDesc_ne_tab name]
      have c4 : countTab d4 = 0 := by
        simp only [countTab, List.length_eq_zero, List.filter_eq_nil_iff]
        intro w hw
        obtain ⟨r, hr⟩ := (p4 w hw).2
        simp [hr, computed_ne_tab name r]
      simp [countTab_append, c1, c3, c4]
    · intro v hv hcv
      obtain ⟨hmem, hic⟩ := p5 v hv hcv
      exact ⟨by simp [hmem], hic⟩



lemma stepAnn_spec (fp name : String) (next : Option Node) (st : ScanState) :
    ∃ b e, stepAnn fp name next st = (b, { st with errors := st.errors ++ e }) ∧
      ∀ x ∈ e, x.severity = "error" := by
  unfold stepAnn addErr
  rcases next with _ | nx
  · exact ⟨false, [], by simp, by simp⟩
  · simp only []
    by_cases ht : nx.type = "line_comment"
    · rw [if_pos ht]
      cases has : annSearch nx.text.toList with
      | none => exact ⟨false, [], by simp, by simp⟩
      | some ann =>
        by_cases hv : (parseAnnot (String.mk ann)).2 = true
        · refine ⟨true, [], ?_, by simp⟩
          simp only [hv, if_true]
          simp
        · refine ⟨true, [⟨fp, nx.row + 1, msgInvalidAnn name (String.mk ann), "error"⟩], ?_, by simp⟩
          simp only [hv, if_false]
          simp [hv]
    · rw [if_neg ht]
      exact ⟨false, [], by simp, by simp⟩

lemma stepNoAnn_ok {fp : String} {line : Nat} {name : String} {p : Bool × ScanState} {st' : ScanState}
    (h : stepNoAnn fp line name p = Except.ok st') :
    ∃ d, st' = resetPrev { p.2 with warnings := p.2.warnings ++ d } ∧
      ∀ w ∈ d, w.severity = "warning" ∧ w.message = msgNoAnn name := by
  unfold stepNoAnn at h
  split at h
  · injection h with h
    exact ⟨[], by rw [← h, eta_warn], by simp⟩
  · split at h
    · exact absurd h (by simp)
    · rename_i ic hic
      split at h
      · injection h with h
        exact ⟨[], by rw [← h, eta_warn], by simp⟩
      · injection h with h
        refine ⟨[⟨fp, line, msgNoAnn name, "warning"⟩], by rw [← h]; rfl, by simp⟩

lemma stepNoAnn_computed {fp : String} {line : Nat} {name : String} {p : Bool × ScanState}
    (hic : p.2.is_computed = some true) :
    stepNoAnn fp line name p = Except.ok (resetPrev p.2) := by
  unfold stepNoAnn
  split
  · rfl
  · rw [hic]
    simp only [if_true]

lemma processVar_skip {fp : String} {node : Node} {rest : List Node} {st : ScanState}
    (hq : varQualify st node = none) :
    processVar fp node rest st = Except.ok (resetPrev st) := by
  unfold processVar
  rw [hq]



lemma processVar_ok {fp : String} {node : Node} {rest : List Node} {st st' : ScanState}
    (h : processVar fp node rest st = Except.ok st') :
    st' = resetPrev st ∨
    ∃ (b : Bool) (ic : Option Bool) (dW dE : List LintErr),
      st' = resetPrev { st with found_any_param := true,
                                param_without_tab_warning_issued := b,
                                is_computed := ic,
                                warnings := st.warnings ++ dW,
                                errors := st.errors ++ dE } ∧
      (∀ w ∈ dW, w.severity = "warning") ∧
      (∀ x ∈ dE, x.severity = "error") ∧
      ((st.param_without_tab_warning_issued = false ∧ b = true ∧ countTab dW ≤ 1) ∨
        (b = st.param_without_tab_warning_issued ∧ countTab dW = 0)) := by
  unfold processVar at h
  split at h
  · left
    injection h with h
    exact h.symm
  · rename_i name vv hq
    right
    simp only [] at h
    obtain ⟨d, b, ic, heq, hsev, hnoann, htab, hcomp⟩ :=
      chain_spec fp (node.row + 1) name vv { st with found_any_param := true }
    rw [heq] at h
    obtain ⟨ab, ae, heqA, hsevA⟩ := stepAnn_spec fp name rest.head?
      { st with found_any_param := true, warnings := st.warnings ++ d,
                param_without_tab_warning_issued := b, is_computed := ic }
    rw [show ({ st with found_any_param := true } : ScanState) = { st with found_any_param := true } from rfl] at h
    rw [heqA] at h
    obtain ⟨d2, heqN, hpN2⟩ := stepNoAnn_ok h
    refine ⟨b, ic, d ++ d2, ae, ?_, ?_, hsevA, ?_⟩
    · rw [heqN]
      simp [List.append_assoc]
    · intro w hw
      rcases List.mem_append.mp hw with h1 | h1
      · exact hsev w h1
      · exact (hpN2 w h1).1
    · have c2 : countTab d2 = 0 := by
        simp only [countTab, List.length_eq_zero, List.filter_eq_nil_iff]
        intro w hw
        simp [(hpN2 w hw).2, noAnn_ne_tab name]
      rcases htab with ⟨h1, h2, h3⟩ | ⟨h1, h2⟩
      · left
        exact ⟨h1, h2, by simp [countTab_append, c2]; omega⟩
      · right
        exact ⟨h1, by simp [countTab_append, c2, h2]⟩



lemma processVar_computed {fp : String} {node : Node} {rest : List Node} {st : ScanState}
    {name : String} {v : Node}
    (hq : varQualify st node = some (name, some v))
    (hc : (get_value_type v).2.1 = true) :
    ∃ st' dW, processVar fp node rest st = Except.ok st' ∧
      st'.warnings = st.warnings ++ dW ∧
      (⟨fp, node.row + 1, msgComputed name (get_value_type v).2.2, "warning"⟩ : LintErr) ∈ dW ∧
      ∀ w ∈ dW, w.message ≠ msgNoAnn name := by
  unfold processVar
  rw [hq]
  simp only []
  obtain ⟨d, b, ic, heq, hsev, hnoann, htab, hcomp⟩ :=
    chain_spec fp (node.row + 1) name (some v) { st with found_any_param := true }
  rw [heq]
  obtain ⟨hmem, hic⟩ := hcomp v rfl hc
  obtain ⟨ab, ae, heqA, hsevA⟩ := stepAnn_spec fp name rest.head?
    { st with found_any_param := true, warnings := st.warnings ++ d,
              param_without_tab_warning_issued := b, is_computed := ic }
  rw [heqA]
  subst hic
  rw [stepNoAnn_computed rfl]
  exact ⟨_, d, rfl, rfl, hmem, hnoann⟩



/-- The tab-warning counting invariant of a scan state. -/
def TabInv (st : ScanState) : Prop :=
  (st.param_without_tab_warning_issued = false → countTab st.warnings = 0) ∧
    countTab st.warnings ≤ 1

lemma walk_facts {fp : String} (nodes : List Node) (st st' : ScanState)
    (h : walk fp nodes st = Except.ok st') :
    (∃ dW, st'.warnings = st.warnings ++ dW ∧ ∀ w ∈ dW, w.severity = "warning") ∧
    (∃ dE, st'.errors = st.errors ++ dE ∧ ∀ x ∈ dE, x.severity = "error") ∧
    (st.found_any_param = true → st'.found_any_param = true) ∧
    (st'.found_any_param = false → st'.errors = st.errors) ∧
    (TabInv st → TabInv st') := by
  induction nodes generalizing st with
  | nil =>
    unfold walk at h
    injection h with h
    subst h
    exact ⟨⟨[], by simp, by simp⟩, ⟨[], by simp, by simp⟩, id, fun _ => rfl, id⟩
  | cons node rest ih =>
    unfold walk at h
    split at h
    · have hf := ih _ h; exact hf
    · split at h
      · split at h
        · have hf := ih _ h; exact hf
        · have hf := ih _ h; exact hf
      · split at h
        · split at h
          · have hf := ih _ h; exact hf
          · split at h
            · have hf := ih _ h; exact hf
            · have hf := ih _ h; exact hf
        · split at h
          · -- var_declaration branch
            split at h
            · rename_i st2 hpv
              rcases processVar_ok hpv with hskip | ⟨b, ic, dW, dE, heq, hsW, hsE, hdisj⟩
              · subst hskip
                have hf := ih _ h; exact hf
              · subst heq
                obtain ⟨⟨dW2, hw2, hsW2⟩, ⟨dE2, he2, hsE2⟩, hmono, hzero, htinv⟩ := ih _ h
                refine ⟨⟨dW ++ dW2, ?_, ?_⟩, ⟨dE ++ dE2, ?_, ?_⟩, ?_, ?_, ?_⟩
                · rw [hw2]; simp [resetPrev, List.append_assoc]
                · intro w hw
                  rcases List.mem_append.mp hw with h1 | h1
                  · exact hsW w h1
                  · exact hsW2 w h1
                · rw [he2]; simp [resetPrev, List.append_assoc]
                · intro x hx
                  rcases List.mem_append.mp hx with h1 | h1
                  · exact hsE x h1
                  · exact hsE2 x h1
                · intro _
                  exact hmono rfl
                · intro hf
                  exact absurd (hmono rfl) (by rw [hf]; simp)
                · intro hinv
                  apply htinv
                  constructor
                  · intro hb
                    rcases hdisj with ⟨h1, h2, h3⟩ | ⟨h1, h2⟩
                    · exact absurd hb (by rw [h2]; simp [resetPrev])
                    · have hif : st.param_without_tab_warning_issued = false := by
                        rw [← h1]; exact hb
                      have hc0 := hinv.1 hif
                      show countTab (st.warnings ++ dW) = 0
                      rw [countTab_append, hc0, h2]
                  · rcases hdisj with ⟨h1, h2, h3⟩ | ⟨h1, h2⟩
                    · have hc0 := hinv.1 h1
                      show countTab (st.warnings ++ dW) ≤ 1
                      rw [countTab_append, hc0]
                      omega
                    · have hle := hinv.2
                      show countTab (st.warnings ++ dW) ≤ 1
                      rw [countTab_append, h2]
                      omega
            · exact absurd h (by simp)
          · have hf := ih _ h; exact hf



lemma varQualify_some {st : ScanState} {node asgn : Node} {name : String} {vv : Option Node}
    (h1 : node.children.find? (fun c => c.type = "assignment") = some asgn)
    (h2 : extractNameValue asgn.children none none = (some name, vv))
    (h3 : ¬(name = "" ∨ startsDollar name = true))
    (h4 : ¬st.current_tab = some "Hidden") :
    varQualify st node = some (name, vv) := by
  unfold varQualify
  rw [h1]
  simp only []
  rw [h2]
  simp only []
  rw [if_neg h3, if_neg h4]

lemma varQualify_hidden_name {st : ScanState} {node asgn : Node} {name : String} {vv : Option Node}
    (h1 : node.children.find? (fun c => c.type = "assignment") = some asgn)
    (h2 : extractNameValue asgn.children none none = (some name, vv))
    (h3 : ¬(name = "" ∨ startsDollar name = true))
    (h4 : st.current_tab = some "Hidden") :
    varQualify st node = none := by
  unfold varQualify
  rw [h1]
  simp only []
  rw [h2]
  simp only []
  rw [if_neg h3, if_pos h4]

lemma varQualify_hidden {st : ScanState} (node : Node)
    (h4 : st.current_tab = some "Hidden") :
    varQualify st node = none := by
  unfold varQualify
  split
  · rfl
  · split
    · rfl
    · rw [h4]
      simp

lemma finalize_warnings (fp : String) (st : ScanState) :
    (finalize fp st).warnings = st.warnings := by
  unfold finalize
  split <;> rfl

lemma passed_iff (r : LintResult) : r.passed = true ↔ r.errors = [] := by
  unfold LintResult.passed
  cases r.errors <;> simp

lemma walk_hidden (fp : String) (decls : List Node) (st : ScanState)
    (hh : st.current_tab = some "Hidden")
    (hd : ∀ n ∈ decls, n.type = "var_declaration") :
    ∃ pc pd, walk fp decls st = Except.ok { st with previous_comment := pc, previous_was_description := pd } := by
  induction decls generalizing st with
  | nil => exact ⟨st.previous_comment, st.previous_was_description, rfl⟩
  | cons n ds ih =>
    have ht := hd n (by simp)
    unfold walk
    rw [if_neg (by simp [ht]), if_neg (by simp [ht]), if_neg (by simp [ht]), if_pos ht]
    rw [processVar_skip (varQualify_hidden n hh)]
    simp only []
    obtain ⟨pc, pd, hw⟩ := ih (resetPrev st) hh (fun x hx => hd x (by simp [hx]))
    exact ⟨pc, pd, hw⟩



lemma listScan_eq_find (xs : List Node) :
    listScan xs =
      (match xs.find? (fun c => c.type == "identifier" || c.type == "binary_expression") with
       | some c => if c.type = "identifier"
           then ("list", true, "list contains variable reference")
           else ("list", true, "list contains computed expression")
       | none => ("list", false, "")) := by
  induction xs with
  | nil => rfl
  | cons c cs ih =>
    unfold listScan
    by_cases h1 : c.type = "identifier"
    · simp [List.find?_cons, h1]
    · by_cases h2 : c.type = "binary_expression"
      · simp [List.find?_cons, h1, h2]
      · rw [if_neg h1, if_neg h2, ih]
        simp [h1, h2]

/-- C4 (amended): for every list node, the classifier is decided by the
FIRST element that is an identifier or a binary expression: identifier
first gives "list contains variable reference", binary expression first
gives "list contains computed expression", and a list with neither kind of
element gives (list, false, ""). -/
theorem list_value_first_special_decides (t : String) (r : Nat) (xs : List Node) :
    get_value_type (Node.mk "list" t r xs) =
      (match xs.find? (fun c => c.type == "identifier" || c.type == "binary_expression") with
       | some c => if c.type = "identifier"
           then ("list", true, "list contains variable reference")
           else ("list", true, "list contains computed expression")
       | none => ("list", false, "")) := by
  have h0 : get_value_type (Node.mk "list" t r xs) = listScan xs := rfl
  rw [h0, listScan_eq_find]

/-- C2: for every walk that ends with `found_any_param` still false, the
returned `LintResult` carries exactly one error — the file-level
"not customizable" diagnostic at sentinel line 1 — and no other errors. -/
theorem no_qualifying_params_single_error (fp : String) (nodes : List Node) (st' : ScanState)
    (hw : walk fp nodes initState = Except.ok st')
    (hnp : st'.found_any_param = false) :
    lint_file fp nodes = Except.ok ⟨fp, [⟨fp, 1, msgNotCustomizable, "error"⟩], st'.warnings⟩ := by
  have herr : st'.errors = [] := by
    have h := (walk_facts nodes initState st' hw).2.2.2.1 hnp
    simpa [initState] using h
  have hfin : finalize fp st' = ⟨fp, [⟨fp, 1, msgNotCustomizable, "error"⟩], st'.warnings⟩ := by
    unfold finalize
    rw [if_neg (by rw [hnp]; simp), herr]
    rw [List.nil_append]
  unfold lint_file
  rw [hw]
  simp only []
  rw [hfin]

/-- C7: in every `LintResult` produced by `lint_file`, the "parameters
should be organized into tabs" warning appears at most once. -/
theorem tab_warning_at_most_once (fp : String) (nodes : List Node) (r : LintResult)
    (h : lint_file fp nodes = Except.ok r) :
    (r.warnings.filter (fun w => w.message = msgTab)).length ≤ 1 := by
  unfold lint_file at h
  cases hw : walk fp nodes initState with
  | error e => rw [hw] at h; exact absurd h (by simp)
  | ok st' =>
    rw [hw] at h
    injection h with h
    have hinv : TabInv st' :=
      (walk_facts nodes initState st' hw).2.2.2.2 ⟨fun _ => rfl, by simp [countTab, initState]⟩
    have hwr : r.warnings = st'.warnings := by rw [← h, finalize_warnings]
    have := hinv.2
    rw [countTab] at this
    rw [hwr]
    exact this

/-- C10: in every `LintResult` produced by `lint_file`, every diagnostic in
`errors` has severity "error", every diagnostic in `warnings` has severity
"warning", and `passed` is true exactly when `errors` is empty. -/
theorem severities_partition_and_passed (fp : String) (nodes : List Node) (r : LintResult)
    (h : lint_file fp nodes = Except.ok r) :
    (∀ e ∈ r.errors, e.severity = "error") ∧ (∀ w ∈ r.warnings, w.severity = "warning") ∧
      (r.passed = true ↔ r.errors = []) := by
  unfold lint_file at h
  cases hw : walk fp nodes initState with
  | error e => rw [hw] at h; exact absurd h (by simp)
  | ok st' =>
    rw [hw] at h
    obtain ⟨⟨dW, hw2, hsW⟩, ⟨dE, he2, hsE⟩, _, _, _⟩ := walk_facts nodes initState st' hw
    have hsWarn : ∀ w ∈ st'.warnings, w.severity = "warning" := by
      intro w hw3
      rw [hw2] at hw3
      simp only [initState, List.nil_append] at hw3
      exact hsW w hw3
    have hsErr : ∀ x ∈ st'.errors, x.severity = "error" := by
      intro x hx
      rw [he2] at hx
      simp only [initState, List.nil_append] at hx
      exact hsE x hx
    injection h with h
    subst h
    refine ⟨?_, ?_, passed_iff _⟩
    · intro e he
      unfold finalize at he
      split at he
      · exact hsErr e he
      · simp only [] at he
        rcases List.mem_append.mp he with h1 | h1
        · exact hsErr e h1
        · simp at h1
          rw [h1]
    · intro w hw3
      rw [finalize_warnings] at hw3
      exact hsWarn w hw3



/-- C5: a qualifying parameter whose value classifies as computed gets the
computed-value warning (with the classifier reason) among the newly added
warnings, and none of the newly added warnings is the "no UI annotation"
warning — regardless of whether a trailing annotation comment follows. -/
theorem computed_value_suppresses_noann_warning (fp : String) (node asgn : Node) (rest : List Node) (st : ScanState)
    (name : String) (v : Node)
    (h1 : node.children.find? (fun c => c.type = "assignment") = some asgn)
    (h2 : extractNameValue asgn.children none none = (some name, some v))
    (h3 : ¬(name = "" ∨ startsDollar name = true))
    (h4 : ¬st.current_tab = some "Hidden")
    (hc : (get_value_type v).2.1 = true) :
    ∃ st' dW, processVar fp node rest st = Except.ok st' ∧
      st'.warnings = st.warnings ++ dW ∧
      (⟨fp, node.row + 1, msgComputed name (get_value_type v).2.2, "warning"⟩ : LintErr) ∈ dW ∧
      ∀ w ∈ dW, w.message ≠ msgNoAnn name :=
  processVar_computed (varQualify_some h1 h2 h3 h4) hc

/-- C6: a variable declaration with an ordinary name processed while
`current_tab` is exactly "Hidden" produces no diagnostics and no state
change beyond the usual reset of the pending-description fields. -/
theorem hidden_tab_emits_no_diagnostics (fp : String) (node asgn : Node) (rest : List Node) (st : ScanState)
    (name : String) (vv : Option Node)
    (h1 : node.children.find? (fun c => c.type = "assignment") = some asgn)
    (h2 : extractNameValue asgn.children none none = (some name, vv))
    (h3 : ¬(name = "" ∨ startsDollar name = true))
    (h4 : st.current_tab = some "Hidden") :
    processVar fp node rest st = Except.ok (resetPrev st) ∧
      (resetPrev st).errors = st.errors ∧
      (resetPrev st).warnings = st.warnings ∧
      (resetPrev st).found_any_param = st.found_any_param ∧
      (resetPrev st).previous_was_description = false :=
  ⟨processVar_skip (varQualify_hidden_name h1 h2 h3 h4), rfl, rfl, rfl, rfl⟩

/-- C9: a file whose only declarations are variable declarations under a
`[Hidden]` tab marker yields the "not customizable" file-level error —
Hidden parameters do not count toward `found_any_param`. -/
theorem hidden_only_file_not_customizable (fp : String) (decls : List Node)
    (hd : ∀ n ∈ decls, n.type = "var_declaration") :
    lint_file fp (Node.mk "block_comment" "/* [Hidden] */" 0 [] :: decls)
      = Except.ok ⟨fp, [⟨fp, 1, msgNotCustomizable, "error"⟩], []⟩ := by
  have hstep : walk fp (Node.mk "block_comment" "/* [Hidden] */" 0 [] :: decls) initState
      = walk fp decls (resetPrev { initState with current_tab := some "Hidden", found_any_tab := true }) := by
    have htab : tabDeclMatch ((Node.mk "block_comment" "/* [Hidden] */" 0 []).text.toList)
        = some "Hidden" := rfl
    simp only [walk]
    rw [if_neg (by simp [Node.type]), if_pos (by simp [Node.type]), htab]
  obtain ⟨pc, pd, hw⟩ := walk_hidden fp decls
    (resetPrev { initState with current_tab := some "Hidden", found_any_tab := true }) rfl hd
  unfold lint_file
  rw [hstep, hw]
  simp only []
  unfold finalize
  rw [if_neg (by simp [initState, resetPrev])]
  rfl

/-- C3 (code bug): on a top-level `x = y;` — a `var_declaration` whose
assignment has an identifier value, which line 258 of the source never
captures into `var_value` — `lint_file` raises `UnboundLocalError` at the
`not is_computed` test instead of returning a `LintResult`. -/
theorem lint_crashes_on_identifier_value :
    lint_file "f.scad" [Node.mk "var_declaration" "" 0 [Node.mk "assignment" "" 0
      [Node.mk "identifier" "x" 0 [], Node.mk "=" "" 0 [], Node.mk "identifier" "y" 0 []]]]
      = Except.error "UnboundLocalError: is_computed" := rfl

/-- C1 counterexample: on the input "[abc]" the classifier returns
(dropdown, valid) — the permissive dropdown pattern matches any nonempty
bracket-free content — and not (unknown, invalid) as the claim states. -/
theorem parseAnnot_bare_word_cex :
    parseAnnot "[abc]" = ("dropdown", true) ∧ parseAnnot "[abc]" ≠ ("unknown", false) :=
  ⟨rfl, by decide⟩

/-- C1 (amended): for all numeric tokens a, b, c (tokens of the slider
pattern, `-?\d+(\.\d+)?`, stated as `parseNum _ = some []`), the inputs
`[a:b]` and `[a:b:c]` classify as (slider, valid); the input "[abc]"
matches the dropdown pattern and classifies as (dropdown, valid) — it does
not produce (unknown, invalid). -/
theorem slider_forms_and_bare_dropdown (a b c : List Char)
    (ha : parseNum a = some []) (hb : parseNum b = some []) (hc : parseNum c = some []) :
    parseAnnot (String.mk ('[' :: (a ++ ':' :: (b ++ [']'])))) = ("slider", true) ∧
    parseAnnot (String.mk ('[' :: (a ++ ':' :: (b ++ ':' :: (c ++ [']']))))) = ("slider", true) ∧
    parseAnnot "[abc]" = ("dropdown", true) :=
  ⟨parseAnnot_slider_two a b ha hb, parseAnnot_slider_three a b c ha hb hc, rfl⟩

/-- C4 counterexample: a list whose elements are a `binary_expression`
followed by an `identifier` is classified "list contains computed
expression", not "list contains variable reference" — so the claim's
"if any element is an identifier, in any order" reading is false. -/
theorem list_mixed_order_cex :
    get_value_type (Node.mk "list" "" 0
      [Node.mk "binary_expression" "1+2" 0 [], Node.mk "identifier" "a" 0 []])
      = ("list", true, "list contains computed expression") ∧
    get_value_type (Node.mk "list" "" 0
      [Node.mk "binary_expression" "1+2" 0 [], Node.mk "identifier" "a" 0 []])
      ≠ ("list", true, "list contains variable reference") :=
  ⟨rfl, by decide⟩

/-- C8: for every pair of nonempty digit strings W, H the keyword inputs
`[image_surface:WxH]`, `[image_array:WxH]` and `[draw_polygon:WxH]`
classify as (image_surface, valid), (image_array, valid) and
(draw_polygon, valid); the same keyword input also matches the dropdown
pattern, so the keyword checks running first is what prevents a dropdown
classification. -/
theorem keyword_forms_beat_dropdown (W H : List Char) (hW : W ≠ []) (hWd : ∀ c ∈ W, c.isDigit = true)
    (hH : H ≠ []) (hHd : ∀ c ∈ H, c.isDigit = true) :
    parseAnnot (String.mk ("[image_surface:".toList ++ (W ++ 'x' :: (H ++ [']'])))) = ("image_surface", true) ∧
    parseAnnot (String.mk ("[image_array:".toList ++ (W ++ 'x' :: (H ++ [']'])))) = ("image_array", true) ∧
    parseAnnot (String.mk ("[draw_polygon:".toList ++ (W ++ 'x' :: (H ++ [']'])))) = ("draw_polygon", true) ∧
    dropdownMatch ("[image_surface:".toList ++ (W ++ 'x' :: (H ++ [']']))) = true :=
  ⟨(parseAnnot_surface W H hW hWd hH hHd).1,
   parseAnnot_array W H hW hWd hH hHd,
   parseAnnot_polygon W H hW hWd hH hHd,
   (parseAnnot_surface W H hW hWd hH hHd).2⟩



theorem slider_forms_and_bare_dropdown_witness :
    parseAnnot (String.mk ('[' :: (['0'] ++ ':' :: (['1'] ++ [']'])))) = ("slider", true) ∧
    parseAnnot (String.mk ('[' :: (['0'] ++ ':' :: (['1'] ++ ':' :: (['2'] ++ [']']))))) = ("slider", true) ∧
    parseAnnot "[abc]" = ("dropdown", true) :=
  slider_forms_and_bare_dropdown ['0'] ['1'] ['2'] rfl rfl rfl

theorem no_qualifying_params_single_error_witness :
    lint_file "f" [] = Except.ok ⟨"f", [⟨"f", 1, msgNotCustomizable, "error"⟩], []⟩ :=
  no_qualifying_params_single_error "f" [] initState rfl rfl

theorem computed_value_suppresses_noann_warning_witness :
    ∃ st' dW,
      processVar "f"
        (Node.mk "var_declaration" "" 0 [Node.mk "assignment" "" 0
          [Node.mk "identifier" "radius" 0 [], Node.mk "=" "" 0 [],
           Node.mk "binary_expression" "10*scale" 0 []]]) [] initState = Except.ok st' ∧
      st'.warnings = initState.warnings ++ dW ∧
      (⟨"f", 1, msgComputed "radius"
        (get_value_type (Node.mk "binary_expression" "10*scale" 0 [])).2.2, "warning"⟩ : LintErr) ∈ dW ∧
      ∀ w ∈ dW, w.message ≠ msgNoAnn "radius" :=
  computed_value_suppresses_noann_warning "f" _ (Node.mk "assignment" "" 0
      [Node.mk "identifier" "radius" 0 [], Node.mk "=" "" 0 [],
       Node.mk "binary_expression" "10*scale" 0 []]) [] initState "radius"
    (Node.mk "binary_expression" "10*scale" 0 []) rfl rfl (by decide) (by decide) rfl

theorem hidden_tab_emits_no_diagnostics_witness :
    processVar "f"
      (Node.mk "var_declaration" "" 0 [Node.mk "assignment" "" 0
        [Node.mk "identifier" "x" 0 [], Node.mk "=" "" 0 [], Node.mk "integer" "5" 0 []]]) []
      { initState with current_tab := some "Hidden" }
      = Except.ok (resetPrev { initState with current_tab := some "Hidden" }) ∧
    (resetPrev { initState with current_tab := some "Hidden" }).errors
      = ({ initState with current_tab := some "Hidden" } : ScanState).errors ∧
    (resetPrev { initState with current_tab := some "Hidden" }).warnings
      = ({ initState with current_tab := some "Hidden" } : ScanState).warnings ∧
    (resetPrev { initState with current_tab := some "Hidden" }).found_any_param
      = ({ initState with current_tab := some "Hidden" } : ScanState).found_any_param ∧
    (resetPrev { initState with current_tab := some "Hidden" }).previous_was_description = false :=
  hidden_tab_emits_no_diagnostics "f" _ (Node.mk "assignment" "" 0
      [Node.mk "identifier" "x" 0 [], Node.mk "=" "" 0 [], Node.mk "integer" "5" 0 []]) []
    { initState with current_tab := some "Hidden" } "x" (some (Node.mk "integer" "5" 0 []))
    rfl rfl (by decide) rfl

theorem tab_warning_at_most_once_witness :
    (((⟨"f", [⟨"f", 1, msgNotCustomizable, "error"⟩], []⟩ : LintResult)).warnings.filter
      (fun w => w.message = msgTab)).length ≤ 1 :=
  tab_warning_at_most_once "f" [] ⟨"f", [⟨"f", 1, msgNotCustomizable, "error"⟩], []⟩ rfl

theorem keyword_forms_beat_dropdown_witness :
    parseAnnot (String.mk ("[image_surface:".toList ++ (['3'] ++ 'x' :: (['4'] ++ [']'])))) = ("image_surface", true) ∧
    parseAnnot (String.mk ("[image_array:".toList ++ (['3'] ++ 'x' :: (['4'] ++ [']'])))) = ("image_array", true) ∧
    parseAnnot (String.mk ("[draw_polygon:".toList ++ (['3'] ++ 'x' :: (['4'] ++ [']'])))) = ("draw_polygon", true) ∧
    dropdownMatch ("[image_surface:".toList ++ (['3'] ++ 'x' :: (['4'] ++ [']']))) = true :=
  keyword_forms_beat_dropdown ['3'] ['4'] (by decide) (by decide) (by decide) (by decide)

theorem hidden_only_file_not_customizable_witness :
    lint_file "f" [Node.mk "block_comment" "/* [Hidden] */" 0 [],
      Node.mk "var_declaration" "" 1 [Node.mk "assignment" "" 1
        [Node.mk "identifier" "x" 1 [], Node.mk "=" "" 1 [], Node.mk "integer" "5" 1 []]]]
      = Except.ok ⟨"f", [⟨"f", 1, msgNotCustomizable, "error"⟩], []⟩ :=
  hidden_only_file_not_customizable "f" [Node.mk "var_declaration" "" 1 [Node.mk "assignment" "" 1
      [Node.mk "identifier" "x" 1 [], Node.mk "=" "" 1 [], Node.mk "integer" "5" 1 []]]]
    (by intro n hn; simp at hn; rw [hn]; rfl)

theorem severities_partition_and_passed_witness :
    (∀ e ∈ (⟨"f", [⟨"f", 1, msgNotCustomizable, "error"⟩], []⟩ : LintResult).errors,
        e.severity = "error") ∧
    (∀ w ∈ (⟨"f", [⟨"f", 1, msgNotCustomizable, "error"⟩], []⟩ : LintResult).warnings,
        w.severity = "warning") ∧
    ((⟨"f", [⟨"f", 1, msgNotCustomizable, "error"⟩], []⟩ : LintResult).passed = true ↔
      (⟨"f", [⟨"f", 1, msgNotCustomizable, "error"⟩], []⟩ : LintResult).errors = []) :=
  severities_partition_and_passed "f" [] ⟨"f", [⟨"f", 1, msgNotCustomizable, "error"⟩], []⟩ rfl

end CustomizerLint
